import Mathlib

/-!
# Verification of the p2p-chat signaling core

A shallow embedding of the signaling/negotiation subsystem of the chat
repository, and proofs of the specification claims about it:

* `src/src/services/signalingService.ts` — `saveSignal` (signal mailbox submit)
* `src/src/routes/webrtc.ts` — `GET /signals/pending/:recipientId` (mailbox drain)
* `src/src/services/messageService.ts` — `updateMessageStatus`
* `src/src/realtime/websocketHub.ts` — the connection hub (handshake,
  dispatch, close, presence fan-out)
* `src/webapp/src/hooks/useWebRtcMessaging.ts` — role derivation and
  `processOffer` glare resolution
* `src/unnamed/part_012` — `dedupeAndSort` (delivery reconciler merge)

TypeScript `Date.now()` values and `Date` fields are modelled as natural
numbers (epoch milliseconds); Mongo `ObjectId`s assigned by `insertOne` are
modelled as naturals; opaque JSON payloads (`Record<string, unknown>`) are
modelled by an opaque `Payload` type with `null`/absent represented by
`Option`.  WebSocket handles are modelled by natural-number socket ids.
-/

namespace Chat

/-- Opaque JSON object payloads (`Record<string, unknown>`); the code never
inspects their contents, only their presence. -/
abbrev Payload := Nat

/-- JS `String.prototype.trim()`: strip leading and trailing whitespace.
(Defined over the character list so that it evaluates by `decide`; the
built-in `String.trim` agrees but does not kernel-reduce.) -/
def jsTrim (s : String) : String :=
  ⟨((s.data.dropWhile Char.isWhitespace).reverse.dropWhile Char.isWhitespace).reverse⟩

/-- Lexicographic comparison of character lists. -/
def charListLt : List Char → List Char → Bool
  | [], [] => false
  | [], _ :: _ => true
  | _ :: _, [] => false
  | a :: as, b :: bs =>
    if a < b then true else if b < a then false else charListLt as bs

/-- JS `<` on strings: lexicographic by code unit. -/
def jsLt (s t : String) : Bool := charListLt s.data t.data

theorem charListLt_asymm : ∀ {as bs : List Char},
    charListLt as bs = true → charListLt bs as = false := by
  intro as
  induction as with
  | nil =>
    intro bs h
    cases bs with
    | nil => simp [charListLt] at h
    | cons b bs => simp [charListLt]
  | cons a as ih =>
    intro bs h
    cases bs with
    | nil => simp [charListLt] at h
    | cons b bs =>
      simp only [charListLt] at h ⊢
      rcases lt_trichotomy a b with hab | hab | hab
      · simp [not_lt_of_gt hab, hab]
      · subst hab
        rw [if_neg (lt_irrefl a), if_neg (lt_irrefl a)] at h ⊢
        exact ih h
      · rw [if_neg (not_lt_of_gt hab), if_pos hab] at h
        cases h

theorem jsLt_asymm {s t : String} (h : jsLt s t = true) : jsLt t s = false :=
  charListLt_asymm h

/-! ## Generic insertion sort used to model Mongo's `sort` and JS `Array.sort` -/

/-- Insert into a list sorted by `le`, after any equal elements (stable). -/
def insertLe (le : α → α → Bool) (a : α) : List α → List α
  | [] => [a]
  | b :: l => if le b a then b :: insertLe le a l else a :: b :: l

/-- Stable insertion sort by `le`. -/
def sortLe (le : α → α → Bool) : List α → List α
  | [] => []
  | a :: l => insertLe le a (sortLe le l)

theorem mem_insertLe {le : α → α → Bool} {a b : α} {l : List α} :
    b ∈ insertLe le a l ↔ b = a ∨ b ∈ l := by
  induction l with
  | nil => simp [insertLe]
  | cons c l ih =>
    simp only [insertLe]
    split
    · simp only [List.mem_cons, ih]
      tauto
    · simp only [List.mem_cons]

theorem insertLe_perm (le : α → α → Bool) (a : α) (l : List α) :
    List.Perm (insertLe le a l) (a :: l) := by
  induction l with
  | nil => simp [insertLe]
  | cons c l ih =>
    simp only [insertLe]
    split
    · exact ((ih.cons c).trans (List.Perm.swap a c l))
    · exact List.Perm.refl _

theorem sortLe_perm (le : α → α → Bool) (l : List α) :
    List.Perm (sortLe le l) l := by
  induction l with
  | nil => exact List.Perm.refl _
  | cons a l ih => exact (insertLe_perm le a (sortLe le l)).trans (ih.cons a)

theorem mem_sortLe {le : α → α → Bool} {a : α} {l : List α} :
    a ∈ sortLe le l ↔ a ∈ l :=
  (sortLe_perm le l).mem_iff

theorem sortLe_length (le : α → α → Bool) (l : List α) :
    (sortLe le l).length = l.length :=
  (sortLe_perm le l).length_eq

theorem insertLe_pairwise {le : α → α → Bool}
    (htot : ∀ a b, le a b = false → le b a = true)
    (htrans : ∀ a b c, le a b = true → le b c = true → le a c = true)
    {a : α} {l : List α} (h : l.Pairwise (fun x y => le x y = true)) :
    (insertLe le a l).Pairwise (fun x y => le x y = true) := by
  induction l with
  | nil => simp [insertLe]
  | cons c l ih =>
    simp only [insertLe]
    rcases List.pairwise_cons.1 h with ⟨hc, hl⟩
    split
    · rename_i hca
      refine List.pairwise_cons.2 ⟨?_, ih hl⟩
      intro b hb
      rcases mem_insertLe.1 hb with rfl | hb
      · exact hca
      · exact hc b hb
    · rename_i hca
      have hac : le a c = true := htot c a (Bool.eq_false_iff.2 hca)
      refine List.pairwise_cons.2 ⟨?_, h⟩
      intro b hb
      rcases List.mem_cons.1 hb with rfl | hb
      · exact hac
      · exact htrans a c b hac (hc b hb)

theorem sortLe_pairwise {le : α → α → Bool}
    (htot : ∀ a b, le a b = false → le b a = true)
    (htrans : ∀ a b c, le a b = true → le b c = true → le a c = true)
    (l : List α) :
    (sortLe le l).Pairwise (fun x y => le x y = true) := by
  induction l with
  | nil => simp [sortLe]
  | cons a l ih => exact insertLe_pairwise htot htrans ih

/-! ## Signal mailbox (`src/src/services/signalingService.ts`,
`src/src/routes/webrtc.ts`) -/

/-- `WebRTCSignalDocument` from `src/src/lib/mongoClient.ts`.  `_id` is the
Mongo-assigned id, `createdAt`/`consumedAt` epoch milliseconds. -/
structure SignalDoc where
  _id : Nat
  sessionId : String
  senderId : String
  recipientId : String
  type : String
  payload : Option Payload
  createdAt : Nat
  consumed : Bool
  consumedAt : Option Nat
deriving DecidableEq, Repr

/-- The signals collection. -/
abbrev SignalStore := List SignalDoc

/-- `ALLOWED_SIGNAL_TYPES` from `signalingService.ts`. -/
def allowedSignalTypes : List String := ["offer", "answer", "candidate", "bye"]

/-- `SignalInput` from `signalingService.ts`: every field may be absent or
null (`Option.none`); a non-object payload is likewise modelled as `none`
(the code coerces it to `null` before use). -/
structure SignalInput where
  sessionId : Option String
  senderId : Option String
  recipientId : Option String
  type : Option String
  payload : Option Payload
deriving DecidableEq, Repr

/-- `saveSignal` from `signalingService.ts`: validates the input, and on
success inserts the document (with `consumed = false`, `createdAt = now`,
`_id` assigned by the store) and returns it.  Errors are the thrown
`Error` messages. -/
def saveSignal (store : SignalStore) (input : SignalInput) (now : Nat) :
    Except String (SignalDoc × SignalStore) :=
  let sessionId := ((input.sessionId.map jsTrim).getD "")
  let senderId := ((input.senderId.map jsTrim).getD "")
  let recipientId := ((input.recipientId.map jsTrim).getD "")
  let typeFalsy : Bool := match input.type with
    | none => true
    | some t => t = ""
  if sessionId = "" || senderId = "" || recipientId = "" || typeFalsy then
    .error "sessionId, senderId, recipientId and type are required."
  else
    let t := input.type.getD ""
    if ¬ allowedSignalTypes.contains t then
      .error ("Unsupported signal type \"" ++ t ++ "\".")
    else
      let normalizedPayload := if t = "bye" then none else input.payload
      if t ≠ "bye" ∧ normalizedPayload = none then
        .error "Signals (except bye) require a payload object."
      else
        let doc : SignalDoc :=
          { _id := store.length
            sessionId := sessionId
            senderId := senderId
            recipientId := recipientId
            type := t
            payload := normalizedPayload
            createdAt := now
            consumed := false
            consumedAt := none }
        .ok (doc, store ++ [doc])

/-- The Mongo query of `GET /signals/pending/:recipientId`
(`routes/webrtc.ts`): unconsumed signals for the trimmed recipient,
optionally restricted to one session. -/
def pendingMatches (r : String) (sessionFilter : String) (d : SignalDoc) : Bool :=
  d.recipientId = jsTrim r ∧ d.consumed = false ∧
    (sessionFilter = "" ∨ d.sessionId = sessionFilter)

/-- Comparison used for `sort: { createdAt: 1 }`. -/
def createdAtLe (a b : SignalDoc) : Bool := a.createdAt ≤ b.createdAt

/-- `GET /signals/pending/:recipientId` from `routes/webrtc.ts`: returns the
matching signals sorted by `createdAt` ascending, capped at 100, and marks
the returned documents consumed (`consumed = true`, `consumedAt = now`).
`sessionQ` is the raw `sessionId` query parameter (absent or a string). -/
def drainPending (store : SignalStore) (recipientId : String)
    (sessionQ : Option String) (now : Nat) : List SignalDoc × SignalStore :=
  let sessionFilter := (sessionQ.map jsTrim).getD ""
  let pending := (sortLe createdAtLe (store.filter (pendingMatches recipientId sessionFilter))).take 100
  if pending.isEmpty then
    ([], store)
  else
    let ids := pending.map (fun d => d._id)
    let store' := store.map (fun d =>
      if ids.contains d._id then { d with consumed := true, consumedAt := some now } else d)
    (pending, store')

/-! ## Message status updates (`src/src/services/messageService.ts`) -/

/-- The fields of `MessageDocument` (`src/src/lib/mongoClient.ts`) touched
or carried by `updateMessageStatus`; `deliveredAt`/`readAt` epoch millis. -/
structure MessageDocument where
  conversationId : String
  senderId : String
  recipientId : String
  content : String
  createdAt : Nat
  delivered : Bool
  deliveredAt : Option Nat
  read : Bool
  readAt : Option Nat
deriving DecidableEq, Repr

/-- The messages collection, keyed by the `_id` hex string. -/
abbrev MessageStore := List (String × MessageDocument)

/-- Statuses accepted by `updateMessageStatus`
(`Exclude<MessageStatus, "sent">`). -/
inductive UpdStatus
  | delivered
  | read
deriving DecidableEq, Repr

/-- `MessageStatusResult` from `messageService.ts`. -/
structure MessageStatusResult where
  before : MessageDocument
  after : MessageDocument
  status : UpdStatus
  timestamp : Nat
deriving DecidableEq, Repr

/-- `ObjectId.isValid` of the mongodb driver on a string argument: a
12-character byte string or a 24-character hex string. -/
def objectIdIsValid (s : String) : Bool :=
  s.length = 12 || (s.length = 24 && s.data.all fun c =>
    c.isDigit || (97 ≤ c.toNat && c.toNat ≤ 102) || (65 ≤ c.toNat && c.toNat ≤ 70))

/-- `collection.findOne({ _id })`. -/
def findMessage (store : MessageStore) (id : String) : Option MessageDocument :=
  (store.find? (fun e => e.1 = id)).map (fun e => e.2)

/-- The `updates`/`changed` computation of `updateMessageStatus`, applied to
the found document (`findOneAndUpdate` with `$set: updates` sets exactly the
fields the code put into `updates`). -/
def applyStatusUpdates (existing : MessageDocument) (status : UpdStatus) (now : Nat) :
    MessageDocument × Bool :=
  let step1 :=
    if status = UpdStatus.delivered ∧ existing.delivered = false then
      ({ existing with delivered := true, deliveredAt := some now }, true)
    else (existing, false)
  if status = UpdStatus.read then
    let step2 :=
      if existing.read = false then
        ({ step1.1 with read := true, readAt := some now }, true)
      else step1
    if existing.delivered = false then
      ({ step2.1 with delivered := true, deliveredAt := some now }, true)
    else step2
  else step1

/-- `updateMessageStatus` from `messageService.ts`.  Returns the result (or
`none` for an invalid/unknown id) together with the message store after the
call; when `changed` is false no write is performed. -/
def updateMessageStatus (store : MessageStore) (messageId : String)
    (status : UpdStatus) (now : Nat) :
    Option MessageStatusResult × MessageStore :=
  if objectIdIsValid messageId = false then
    (none, store)
  else
    match findMessage store messageId with
    | none => (none, store)
    | some existing =>
      let (after, changed) := applyStatusUpdates existing status now
      if changed = false then
        (some { before := existing, after := existing, status := status
                timestamp := (existing.readAt.orElse fun _ => existing.deliveredAt).getD now },
         store)
      else
        let store' := store.map (fun e => if e.1 = messageId then (e.1, after) else e)
        (some { before := existing, after := after, status := status
                timestamp :=
                  match status with
                  | UpdStatus.read => after.readAt.getD now
                  | UpdStatus.delivered => after.deliveredAt.getD now },
         store')

/-! ## Connection hub (`src/src/realtime/websocketHub.ts`)

Sockets are natural-number handles.  The `Map`s (`registry`, `presenceMap`)
are association lists with JS `Map` semantics: `set` overwrites in place,
`delete` removes, iteration follows insertion order.  A `Set<WebSocket>` is
a duplicate-free list in insertion order. -/

abbrev SocketId := Nat

inductive PresenceStatus
  | online
  | away
  | offline
deriving DecidableEq, Repr

structure PresenceInfo where
  status : PresenceStatus
  updatedAt : Nat
deriving DecidableEq, Repr

structure PresencePayload where
  peerId : String
  status : PresenceStatus
  timestamp : Nat
deriving DecidableEq, Repr

structure TypingPayload where
  senderId : String
  recipientId : String
  conversationId : String
  state : String
  timestamp : Nat
deriving DecidableEq, Repr

/-- Outbound events the hub can send on a socket. -/
inductive Outbound
  | helloAck (peerId : String)
  | presenceSync (payload : List PresencePayload)
  | presenceUpdate (payload : PresencePayload)
  | signalOut (payload : SignalDoc)
  | signalAck (payload : SignalDoc)
  | typingOut (payload : TypingPayload)
  | pong (ts : Nat)
  | errorOut (error : String)
deriving DecidableEq, Repr

/-- One `send(socket, message)`. -/
abbrev Emit := SocketId × Outbound

/-- JS `Map.set`: overwrite the existing entry in place, else append. -/
def mapSet (l : List (α × β)) (k : α) (v : β) [DecidableEq α] : List (α × β) :=
  if l.any (fun e => e.1 = k) then
    l.map (fun e => if e.1 = k then (k, v) else e)
  else
    l ++ [(k, v)]

/-- JS `Map.get`. -/
def mapGet (l : List (α × β)) (k : α) [DecidableEq α] : Option β :=
  (l.find? (fun e => e.1 = k)).map (fun e => e.2)

/-- JS `Map.delete`. -/
def mapDelete (l : List (α × β)) (k : α) [DecidableEq α] : List (α × β) :=
  l.filter (fun e => e.1 ≠ k)

/-- The hub's shared state: the connection registry (peer → live sockets),
the presence map, and the signals collection `handleSignalEvent` persists
into. -/
structure HubState where
  registry : List (String × List SocketId)
  presence : List (String × PresenceInfo)
  signals : SignalStore
deriving DecidableEq, Repr

/-- `serializePresence()`. -/
def serializePresence (st : HubState) : List PresencePayload :=
  st.presence.map (fun e => { peerId := e.1, status := e.2.status, timestamp := e.2.updatedAt })

/-- `emitToAll(message, exclude?)`: every socket of every peer, minus the
excluded one. -/
def emitToAll (registry : List (String × List SocketId)) (message : Outbound)
    (exclude : Option SocketId) : List Emit :=
  registry.flatMap (fun e =>
    e.2.filterMap (fun s => if exclude = some s then none else some (s, message)))

/-- `emitToPeer(peerId, message)`. -/
def emitToPeer (registry : List (String × List SocketId)) (peerId : String)
    (message : Outbound) : List Emit :=
  match mapGet registry peerId with
  | none => []
  | some sockets => sockets.map (fun s => (s, message))

/-- `updatePresence(peerId, status, options?)`: stores the presence record
and, unless `notify` is `false`, broadcasts a `presence:update`. -/
def updatePresence (st : HubState) (peerId : String) (status : PresenceStatus)
    (now : Nat) (notify : Bool) (exclude : Option SocketId) :
    HubState × List Emit :=
  let st' := { st with presence := mapSet st.presence peerId { status := status, updatedAt := now } }
  if notify then
    (st', emitToAll st'.registry (.presenceUpdate { peerId := peerId, status := status, timestamp := now }) exclude)
  else
    (st', [])

/-- `registerClient(peerId, socket)`. -/
def registerClient (registry : List (String × List SocketId)) (peerId : String)
    (socket : SocketId) : List (String × List SocketId) :=
  match mapGet registry peerId with
  | some sockets =>
    mapSet registry peerId (if sockets.contains socket then sockets else sockets ++ [socket])
  | none => mapSet registry peerId [socket]

/-- `unregisterClient(peerId, socket)`. -/
def unregisterClient (registry : List (String × List SocketId)) (peerId : String)
    (socket : SocketId) : List (String × List SocketId) :=
  match mapGet registry peerId with
  | none => registry
  | some sockets =>
    let sockets' := sockets.erase socket
    if sockets'.isEmpty then mapDelete registry peerId
    else mapSet registry peerId sockets'

/-- `createConversationId(peerA, peerB)`: the trimmed pair sorted and joined
with `#` (`localeCompare` modelled by the string order). -/
def createConversationId (peerA peerB : String) : String :=
  if jsLt (jsTrim peerB) (jsTrim peerA) then jsTrim peerB ++ "#" ++ jsTrim peerA
  else jsTrim peerA ++ "#" ++ jsTrim peerB

/-- Result of handling one inbound frame: hub state, the connection's
`peerId` variable, the sends, and the sockets closed by `socket.close()`. -/
structure FrameResult where
  state : HubState
  peer : Option String
  emits : List Emit
  closes : List SocketId
deriving DecidableEq, Repr

/-- The `case "hello"` branch of the hub's message handler.  `peerIdField`
is `data.peerId` when it is a string (`none` otherwise); `t1`/`t2` are the
two `Date.now()` readings of the two `updatePresence` calls. -/
def handleHello (st : HubState) (peer : Option String) (socket : SocketId)
    (peerIdField : Option String) (t1 t2 : Nat) : FrameResult :=
  let incomingPeer := jsTrim (peerIdField.getD "")
  if incomingPeer = "" then
    { state := st, peer := peer
      emits := [(socket, .errorOut "peerId is required")], closes := [socket] }
  else
    let st1 := { st with registry := registerClient st.registry incomingPeer socket }
    let st2 := (updatePresence st1 incomingPeer .online t1 false none).1
    let ack : Emit := (socket, .helloAck incomingPeer)
    let sync : Emit := (socket, .presenceSync (serializePresence st2))
    let step3 := updatePresence st2 incomingPeer .online t2 true (some socket)
    { state := step3.1, peer := some incomingPeer
      emits := ack :: sync :: step3.2, closes := [] }

/-- `handleSignalEvent(socket, data)`: persists through `saveSignal`, then
`broadcastSignal(api, document.senderId)` and a `signal:ack` to the sender;
a thrown validation error becomes an `error` envelope. -/
def handleSignalEvent (st : HubState) (socket : SocketId) (input : SignalInput)
    (now : Nat) : HubState × List Emit :=
  match saveSignal st.signals input now with
  | .error msg => (st, [(socket, .errorOut msg)])
  | .ok (doc, signals') =>
    let st' := { st with signals := signals' }
    let broadcast :=
      if doc.senderId ≠ doc.recipientId then
        emitToPeer st'.registry doc.recipientId (.signalOut doc)
      else []
    (st', broadcast ++ [(socket, .signalAck doc)])

/-- Inbound frames, after JSON parsing, with every loosely-typed field kept
optional exactly as the `typeof` guards in the hub see them. -/
inductive InboundFrame
  | hello (peerId : Option String)
  | signal (input : SignalInput)
  | typing (recipientId : Option String) (state : Option String)
      (timestamp : Option Nat) (conversationId : Option String)
  | presence (status : Option String)
  | ping
  | unknown (t : String)
deriving DecidableEq, Repr

/-- The hub's `socket.on("message")` dispatch switch. `peer` is the closure
variable `peerId` (null until a successful hello), `now` the `Date.now()`
reading for this frame. -/
def handleFrame (st : HubState) (peer : Option String) (socket : SocketId)
    (frame : InboundFrame) (now : Nat) : FrameResult :=
  match frame with
  | .hello peerIdField => handleHello st peer socket peerIdField now now
  | .signal input =>
    match peer with
    | none =>
      { state := st, peer := peer
        emits := [(socket, .errorOut "Handshake not completed.")], closes := [] }
    | some _ =>
      let res := handleSignalEvent st socket input now
      { state := res.1, peer := peer, emits := res.2, closes := [] }
  | .typing recipientField stateField timestampField conversationField =>
    match peer with
    | none =>
      { state := st, peer := peer
        emits := [(socket, .errorOut "Handshake not completed.")], closes := [] }
    | some p =>
      let recipientId := jsTrim (recipientField.getD "")
      let rawState : Option String :=
        if stateField = some "start" then some "start"
        else if stateField = some "stop" then some "stop"
        else none
      match rawState with
      | none =>
        { state := st, peer := peer
          emits := [(socket, .errorOut "Invalid typing payload.")], closes := [] }
      | some s =>
        if recipientId = "" then
          { state := st, peer := peer
            emits := [(socket, .errorOut "Invalid typing payload.")], closes := [] }
        else
          let timestamp := timestampField.getD now
          let conversationId :=
            match conversationField with
            | some c => if c ≠ "" then c else createConversationId p recipientId
            | none => createConversationId p recipientId
          { state := st, peer := peer
            emits := emitToPeer st.registry recipientId
              (.typingOut { senderId := p, recipientId := recipientId
                            conversationId := conversationId, state := s
                            timestamp := timestamp })
            closes := [] }
  | .presence statusField =>
    match peer with
    | none =>
      { state := st, peer := peer
        emits := [(socket, .errorOut "Handshake not completed.")], closes := [] }
    | some p =>
      let status : Option PresenceStatus :=
        if statusField = some "online" then some .online
        else if statusField = some "away" then some .away
        else none
      match status with
      | none =>
        { state := st, peer := peer
          emits := [(socket, .errorOut "Invalid presence payload.")], closes := [] }
      | some s =>
        let res := updatePresence st p s now true none
        { state := res.1, peer := peer, emits := res.2, closes := [] }
  | .ping =>
    { state := st, peer := peer, emits := [(socket, .pong now)], closes := [] }
  | .unknown t =>
    { state := st, peer := peer
      emits := [(socket, .errorOut ("Unknown event type \"" ++ t ++ "\""))]
      closes := [] }

/-- The hub's `socket.on("close")` handler: unregister the socket and set
the peer's presence to `offline` (broadcasting the change). -/
def handleClose (st : HubState) (peer : Option String) (socket : SocketId)
    (now : Nat) : HubState × List Emit :=
  match peer with
  | none => (st, [])
  | some p =>
    let st1 := { st with registry := unregisterClient st.registry p socket }
    updatePresence st1 p .offline now true none

/-! ## Peer session negotiator (`src/webapp/src/hooks/useWebRtcMessaging.ts`)

The `RTCPeerConnection` is modelled by its signaling state and its local and
remote session descriptions; a description records which peer created it
(its SDP contents are otherwise opaque) and whether it is an offer or an
answer.  The standard WebRTC transitions used by `processOffer` are:
rollback returns to `stable` discarding the pending local description,
`setRemoteDescription(offer)` moves to `have-remote-offer`, and
`setLocalDescription(answer)` completes the exchange back to `stable`. -/

inductive SdpKind
  | offer
  | answer
deriving DecidableEq, Repr

/-- A session description, identified by the peer that created it. -/
structure SessionDescription where
  kind : SdpKind
  origin : String
deriving DecidableEq, Repr

inductive SignalingState
  | stable
  | haveLocalOffer
  | haveLocalPranswer
  | haveRemoteOffer
  | haveRemotePranswer
deriving DecidableEq, Repr

structure PeerConnectionState where
  signalingState : SignalingState
  localDescription : Option SessionDescription
  remoteDescription : Option SessionDescription
deriving DecidableEq, Repr

/-- The hook's per-conversation refs used by `processOffer`. -/
structure NegotiatorState where
  makingOffer : Bool
  ignoreOffer : Bool
  sessionId : Option String
  pc : Option PeerConnectionState
deriving DecidableEq, Repr

/-- `isInitiator`: `normalizedSelfId < normalizedPeerId`. -/
def isInitiator (selfId peerId : String) : Bool := jsLt (jsTrim selfId) (jsTrim peerId)

/-- `isPolite`: `normalizedSelfId > normalizedPeerId`. -/
def isPolite (selfId peerId : String) : Bool := jsLt (jsTrim peerId) (jsTrim selfId)

/-- `setLocalDescription({ type: "rollback" })`. -/
def pcRollback (pc : PeerConnectionState) : PeerConnectionState :=
  { pc with signalingState := .stable, localDescription := none }

/-- `setRemoteDescription(offer)`. -/
def pcSetRemoteOffer (pc : PeerConnectionState) (d : SessionDescription) :
    PeerConnectionState :=
  { pc with signalingState := .haveRemoteOffer, remoteDescription := some d }

/-- `setLocalDescription(answer)`. -/
def pcSetLocalAnswer (pc : PeerConnectionState) (d : SessionDescription) :
    PeerConnectionState :=
  { pc with signalingState := .stable, localDescription := some d }

/-- `ensurePeerConnection(sessionId)`: reuse the existing connection
(adopting the session id if none is set), else create a fresh one in the
`stable` state. -/
def ensurePeerConnection (st : NegotiatorState) (sessionId : String) :
    NegotiatorState × PeerConnectionState :=
  match st.pc with
  | some pc =>
    ({ st with sessionId := match st.sessionId with | none => some sessionId | some s => some s }, pc)
  | none =>
    let pc : PeerConnectionState :=
      { signalingState := .stable, localDescription := none, remoteDescription := none }
    ({ st with pc := some pc, sessionId := some sessionId }, pc)

/-- Externally visible steps taken by `processOffer`. -/
inductive NegotiationAction
  | rollback
  | setRemote (d : SessionDescription)
  | sendAnswer (sessionId : String) (d : SessionDescription)
  | offerError (msg : String)
deriving DecidableEq, Repr

/-- `processOffer` from `useWebRtcMessaging.ts` (the perfect-negotiation
version): detects an offer collision, lets the impolite peer ignore the
incoming offer, rolls back an in-flight local offer on the polite peer, and
answers the accepted offer. -/
def processOffer (selfId peerId : String) (st : NegotiatorState)
    (sessionId : String) (payload : Option SessionDescription) :
    NegotiatorState × List NegotiationAction :=
  if sessionId = "" then (st, [])
  else
    let (st1, pc) := ensurePeerConnection st sessionId
    match payload with
    | none => ({ st1 with ignoreOffer := false }, [.offerError "Offer payload missing."])
    | some offer =>
      let offerCollision := st1.makingOffer || pc.signalingState ≠ SignalingState.stable
      let ignore := !(isPolite selfId peerId) && offerCollision
      if ignore then
        ({ st1 with ignoreOffer := true }, [])
      else
        let needsRollback :=
          pc.signalingState = SignalingState.haveLocalOffer ||
            pc.signalingState = SignalingState.haveLocalPranswer
        let doRollback := offerCollision && needsRollback
        let pc1 := if doRollback then pcRollback pc else pc
        let answer : SessionDescription := { kind := .answer, origin := selfId }
        let pc2 := pcSetLocalAnswer (pcSetRemoteOffer pc1 offer) answer
        ({ st1 with pc := some pc2, ignoreOffer := false },
         (if doRollback then [NegotiationAction.rollback] else []) ++
           [.setRemote offer, .sendAnswer sessionId answer])

/-! ## Delivery reconciler (`dedupeAndSort`, `src/unnamed/part_012`) -/

/-- The `replyTo` snapshot carried by a chat message. -/
structure ReplySnapshot where
  id : String
  senderId : String
  content : String
  createdAt : Nat
deriving DecidableEq, Repr

/-- One reaction bucket: the reacting user ids and their count. -/
structure ReactionBucket where
  userIds : List String
  count : Nat
deriving DecidableEq, Repr

/-- `ChatMessage` as consumed by `dedupeAndSort`: `createdAt` epoch millis,
the optional fields `none` when the JSON key is absent. -/
structure ChatMessage where
  id : String
  conversationId : String
  senderId : String
  recipientId : String
  content : String
  createdAt : Nat
  delivered : Bool
  deliveredAt : Option Nat
  read : Bool
  readAt : Option Nat
  replyTo : Option ReplySnapshot
  reactions : Option (List (String × ReactionBucket))
deriving DecidableEq, Repr

/-- The dedup key: the message id when non-empty, else the
sender/recipient/createdAt composite. -/
def messageKey (m : ChatMessage) : String :=
  if m.id ≠ "" then m.id
  else m.senderId ++ "-" ++ m.recipientId ++ "-" ++ toString m.createdAt

/-- The object-spread merge `{...existing, ...message, delivered: …}` of
`dedupeAndSort`: required fields come from the newer record, the optional
fields keep the older value only where the newer record leaves them absent
(or, for the explicitly merged flags, per the stated rule). -/
def mergeRecords (existing msg : ChatMessage) : ChatMessage :=
  { id := msg.id
    conversationId := msg.conversationId
    senderId := msg.senderId
    recipientId := msg.recipientId
    content := msg.content
    createdAt := msg.createdAt
    delivered := existing.delivered || msg.delivered
    deliveredAt := msg.deliveredAt.orElse fun _ => existing.deliveredAt
    read := existing.read || msg.read
    readAt := msg.readAt.orElse fun _ => existing.readAt
    replyTo := msg.replyTo.orElse fun _ => existing.replyTo
    reactions := msg.reactions.orElse fun _ => existing.reactions }

/-- The accumulation loop of `dedupeAndSort` on the keyed `Map`. -/
def dedupeStep (acc : List (String × ChatMessage)) (m : ChatMessage) :
    List (String × ChatMessage) :=
  let k := messageKey m
  match mapGet acc k with
  | some existing => mapSet acc k (mergeRecords existing m)
  | none => acc ++ [(k, m)]

/-- Comparator `(a, b) => Date(a.createdAt) - Date(b.createdAt)`. -/
def chatCreatedAtLe (a b : ChatMessage) : Bool := a.createdAt ≤ b.createdAt

/-- `dedupeAndSort` from `src/unnamed/part_012`: key every record, merge
records sharing a key, and sort the merged values by creation time. -/
def dedupeAndSort (messages : List ChatMessage) : List ChatMessage :=
  sortLe chatCreatedAtLe ((messages.foldl dedupeStep []).map (fun e => e.2))

/-! ## Helper lemmas about the JS `Map`/`Set` model -/

theorem find?_key_map_replace [DecidableEq α] (l : List (α × β)) (k : α) (v : β) :
    List.find? (fun e => e.1 = k) (l.map fun e => if e.1 = k then (k, v) else e) =
      (List.find? (fun e => e.1 = k) l).map (fun _ => (k, v)) := by
  induction l with
  | nil => simp
  | cons e l ih =>
    by_cases h : e.1 = k
    · rw [List.map_cons, if_pos h, List.find?_cons_of_pos _ (by simp),
        List.find?_cons_of_pos _ (by simp [h])]
      rfl
    · rw [List.map_cons, if_neg h, List.find?_cons_of_neg _ (by simp [h]),
        List.find?_cons_of_neg _ (by simp [h]), ih]

theorem mapGet_mapSet_self [DecidableEq α] (l : List (α × β)) (k : α) (v : β) :
    mapGet (mapSet l k v) k = some v := by
  unfold mapSet mapGet
  split
  · rename_i hany
    rcases List.any_eq_true.1 hany with ⟨e, he, hek⟩
    rw [find?_key_map_replace]
    have hsome : (List.find? (fun e => e.1 = k) l).isSome := List.find?_isSome.2 ⟨e, he, hek⟩
    rcases Option.isSome_iff_exists.1 hsome with ⟨w, hw⟩
    rw [hw]
    rfl
  · rename_i hany
    have hnone : List.find? (fun e => e.1 = k) l = none := by
      rw [List.find?_eq_none]
      intro e he hek
      exact hany (List.any_eq_true.2 ⟨e, he, hek⟩)
    rw [List.find?_append, hnone, Option.none_or, List.find?_cons_of_pos _ (by simp)]
    rfl

theorem mapGet_mapDelete_self [DecidableEq α] (l : List (α × β)) (k : α) :
    mapGet (mapDelete l k) k = none := by
  unfold mapGet mapDelete
  induction l with
  | nil => simp
  | cons e l ih =>
    by_cases h : e.1 = k
    · simp [List.filter, h, ih]
    · simp [List.filter, h, List.find?, ih]

theorem mem_mapSet_self [DecidableEq α] (l : List (α × β)) (k : α) (v : β) :
    (k, v) ∈ mapSet l k v := by
  unfold mapSet
  split
  · rename_i hany
    rcases List.any_eq_true.1 hany with ⟨e, he, hek⟩
    refine List.mem_map.2 ⟨e, he, ?_⟩
    simp [of_decide_eq_true hek]
  · exact List.mem_append.2 (Or.inr (List.mem_singleton.2 rfl))

theorem mapGet_eq_none_iff [DecidableEq α] {l : List (α × β)} {k : α} :
    mapGet l k = none ↔ k ∉ l.map (fun e => e.1) := by
  unfold mapGet
  rw [Option.map_eq_none', List.find?_eq_none]
  constructor
  · intro h hk
    rcases List.mem_map.1 hk with ⟨e, he, hek⟩
    exact absurd (decide_eq_true hek) (by simpa using h e he)
  · intro h e he hek
    exact h (List.mem_map.2 ⟨e, he, of_decide_eq_true hek⟩)

theorem mapSet_keys_of_mem [DecidableEq α] (l : List (α × β)) (k : α) (v : β)
    (h : l.any (fun e => e.1 = k) = true) :
    (mapSet l k v).map (fun e => e.1) = l.map (fun e => e.1) := by
  unfold mapSet
  rw [if_pos h, List.map_map]
  refine List.map_congr_left ?_
  intro e _
  by_cases hek : e.1 = k
  · simp [Function.comp, hek]
  · simp [Function.comp, hek]

/-- All live sockets of one peer. -/
def socketsOfPeer (registry : List (String × List SocketId)) (peerId : String) :
    List SocketId :=
  (mapGet registry peerId).getD []

/-- Every live socket in the registry. -/
def allSockets (registry : List (String × List SocketId)) : List SocketId :=
  registry.flatMap (fun e => e.2)

theorem mem_emitToAll {registry : List (String × List SocketId)} {message : Outbound}
    {exclude : Option SocketId} {s : SocketId} {m : Outbound} :
    (s, m) ∈ emitToAll registry message exclude ↔
      m = message ∧ s ∈ allSockets registry ∧ exclude ≠ some s := by
  unfold emitToAll allSockets
  rw [List.mem_flatMap, List.mem_flatMap]
  constructor
  · rintro ⟨e, he, hm⟩
    rcases List.mem_filterMap.1 hm with ⟨s', hs', hval⟩
    by_cases hx : exclude = some s'
    · simp [hx] at hval
    · simp only [if_neg hx, Option.some.injEq, Prod.mk.injEq] at hval
      rcases hval with ⟨rfl, rfl⟩
      exact ⟨rfl, ⟨e, he, hs'⟩, hx⟩
  · rintro ⟨rfl, ⟨e, he, hs⟩, hx⟩
    refine ⟨e, he, List.mem_filterMap.2 ⟨s, hs, ?_⟩⟩
    simp [hx]

/-! ## Claim C8 — blank handshake identities are rejected -/

/-- C8: a handshake whose peer identity is empty or whitespace-only is
answered with an error envelope, the transport is closed, no connection is
registered and no presence record is created or changed (the hub state is
returned untouched). -/
theorem handleHello_rejects_blank (st : HubState) (peer : Option String)
    (socket : SocketId) (peerIdField : Option String) (t1 t2 : Nat)
    (h : jsTrim (peerIdField.getD "") = "") :
    handleHello st peer socket peerIdField t1 t2 =
      { state := st, peer := peer
        emits := [(socket, .errorOut "peerId is required")]
        closes := [socket] } := by
  unfold handleHello
  rw [if_pos h]

/-- Witness for C8 at a whitespace-only identity. -/
theorem handleHello_rejects_blank_witness :
    handleHello ⟨[("q", [3])], [], []⟩ none 7 (some "   ") 1 2 =
      { state := ⟨[("q", [3])], [], []⟩, peer := none
        emits := [(7, .errorOut "peerId is required")]
        closes := [7] } :=
  handleHello_rejects_blank ⟨[("q", [3])], [], []⟩ none 7 (some "   ") 1 2 (by decide)

/-! ## Claim C9 — frames before the handshake -/

/-- C9: before a successful hello, inbound `signal`, `typing` and `presence`
frames each produce only an error envelope back to the sender (no state
change, no close), while an inbound `ping` is still answered with a `pong`. -/
theorem preHandshake_frames (st : HubState) (socket : SocketId) (now : Nat) :
    (∀ input, handleFrame st none socket (.signal input) now =
      { state := st, peer := none
        emits := [(socket, .errorOut "Handshake not completed.")], closes := [] })
    ∧ (∀ r s t c, handleFrame st none socket (.typing r s t c) now =
      { state := st, peer := none
        emits := [(socket, .errorOut "Handshake not completed.")], closes := [] })
    ∧ (∀ status, handleFrame st none socket (.presence status) now =
      { state := st, peer := none
        emits := [(socket, .errorOut "Handshake not completed.")], closes := [] })
    ∧ handleFrame st none socket .ping now =
      { state := st, peer := none, emits := [(socket, .pong now)], closes := [] } :=
  ⟨fun _ => rfl, fun _ _ _ _ => rfl, fun _ => rfl, rfl⟩

/-! ## Claim C5 — handshake ordering: register, silent presence, ack,
snapshot, then broadcast to everyone else -/

/-- `updatePresence` with `notify: false` only stores the record. -/
theorem updatePresence_false_eq (st : HubState) (p : String)
    (status : PresenceStatus) (now : Nat) (exclude : Option SocketId) :
    updatePresence st p status now false exclude =
      ({ st with presence := mapSet st.presence p ⟨status, now⟩ }, []) := rfl

/-- `updatePresence` with notification stores the record and broadcasts. -/
theorem updatePresence_true_eq (st : HubState) (p : String)
    (status : PresenceStatus) (now : Nat) (exclude : Option SocketId) :
    updatePresence st p status now true exclude =
      ({ st with presence := mapSet st.presence p ⟨status, now⟩ },
        emitToAll st.registry (.presenceUpdate ⟨p, status, now⟩) exclude) := rfl

/-- A successful handshake, written out explicitly. -/
theorem handleHello_success_eq (st : HubState) (peer : Option String)
    (socket : SocketId) (peerIdField : Option String) (t1 t2 : Nat)
    (h : ¬ jsTrim (peerIdField.getD "") = "") :
    handleHello st peer socket peerIdField t1 t2 =
      { state :=
          { registry := registerClient st.registry (jsTrim (peerIdField.getD "")) socket
            presence := mapSet (mapSet st.presence (jsTrim (peerIdField.getD "")) ⟨.online, t1⟩)
              (jsTrim (peerIdField.getD "")) ⟨.online, t2⟩
            signals := st.signals }
        peer := some (jsTrim (peerIdField.getD ""))
        emits := (socket, .helloAck (jsTrim (peerIdField.getD ""))) ::
          (socket, .presenceSync (serializePresence
            { registry := registerClient st.registry (jsTrim (peerIdField.getD "")) socket
              presence := mapSet st.presence (jsTrim (peerIdField.getD "")) ⟨.online, t1⟩
              signals := st.signals })) ::
          emitToAll (registerClient st.registry (jsTrim (peerIdField.getD "")) socket)
            (.presenceUpdate ⟨jsTrim (peerIdField.getD ""), .online, t2⟩) (some socket)
        closes := [] } := by
  unfold handleHello
  rw [if_neg h]
  rfl

/-- The just-registered socket is live for its peer. -/
theorem mem_socketsOfPeer_registerClient (registry : List (String × List SocketId))
    (p : String) (socket : SocketId) :
    socket ∈ socketsOfPeer (registerClient registry p socket) p := by
  unfold socketsOfPeer registerClient
  rcases hg : mapGet registry p with _ | sockets
  · rw [mapGet_mapSet_self]
    simp
  · rw [mapGet_mapSet_self]
    by_cases hc : socket ∈ sockets
    · simp [hc]
    · simp [hc]

/-- C5: a successful handshake registers the connection, sets the caller's
presence to online without notifying anyone, then emits — in this order —
the acknowledgement and the full presence snapshot to the caller, and only
afterwards the `presence:update` broadcast, which goes to every other live
socket and never to the caller itself; the snapshot already contains the
caller's own online record, so the caller never sees its own status as a
separate `presence:update`. -/
theorem handleHello_ordering (st : HubState) (peer : Option String)
    (socket : SocketId) (peerIdField : Option String) (t1 t2 : Nat)
    (h : jsTrim (peerIdField.getD "") ≠ "") :
    ∃ snap broadcast,
      (handleHello st peer socket peerIdField t1 t2).emits =
          (socket, .helloAck (jsTrim (peerIdField.getD ""))) ::
          (socket, .presenceSync snap) :: broadcast
      ∧ (handleHello st peer socket peerIdField t1 t2).closes = []
      ∧ (handleHello st peer socket peerIdField t1 t2).peer =
          some (jsTrim (peerIdField.getD ""))
      ∧ socket ∈ socketsOfPeer (handleHello st peer socket peerIdField t1 t2).state.registry
          (jsTrim (peerIdField.getD ""))
      ∧ mapGet (handleHello st peer socket peerIdField t1 t2).state.presence
          (jsTrim (peerIdField.getD "")) = some ⟨.online, t2⟩
      ∧ ({ peerId := jsTrim (peerIdField.getD ""), status := .online, timestamp := t1 }
          : PresencePayload) ∈ snap
      ∧ (∀ e ∈ broadcast, e.1 ≠ socket ∧
          e.2 = .presenceUpdate
            { peerId := jsTrim (peerIdField.getD ""), status := .online, timestamp := t2 })
      ∧ (∀ s2, s2 ∈ allSockets (handleHello st peer socket peerIdField t1 t2).state.registry →
          s2 ≠ socket →
          (s2, .presenceUpdate
            { peerId := jsTrim (peerIdField.getD ""), status := .online, timestamp := t2 })
            ∈ broadcast) := by
  rw [handleHello_success_eq st peer socket peerIdField t1 t2 h]
  refine ⟨_, _, rfl, rfl, rfl, ?_, ?_, ?_, ?_, ?_⟩
  · exact mem_socketsOfPeer_registerClient st.registry _ socket
  · exact mapGet_mapSet_self _ _ _
  · unfold serializePresence
    exact List.mem_map.2 ⟨(jsTrim (peerIdField.getD ""), ⟨.online, t1⟩),
      mem_mapSet_self _ _ _, rfl⟩
  · intro e he
    have hm := mem_emitToAll.1 he
    exact ⟨fun hs => hm.2.2 (by rw [hs]), hm.1⟩
  · intro s2 hs2 hne
    exact mem_emitToAll.2 ⟨rfl, hs2, by simp [Ne.symm hne]⟩

/-- Witness for C5: peer "alice" handshakes on socket 7 while peer "q" is
already connected on socket 3. -/
theorem handleHello_ordering_witness :
    ∃ snap broadcast,
      (handleHello ⟨[("q", [3])], [("q", ⟨.online, 0⟩)], []⟩ none 7 (some "alice") 1 2).emits =
          (7, .helloAck "alice") :: (7, .presenceSync snap) :: broadcast
      ∧ (handleHello ⟨[("q", [3])], [("q", ⟨.online, 0⟩)], []⟩ none 7 (some "alice") 1 2).closes = []
      ∧ (handleHello ⟨[("q", [3])], [("q", ⟨.online, 0⟩)], []⟩ none 7 (some "alice") 1 2).peer = some "alice"
      ∧ 7 ∈ socketsOfPeer (handleHello ⟨[("q", [3])], [("q", ⟨.online, 0⟩)], []⟩ none 7 (some "alice") 1 2).state.registry "alice"
      ∧ mapGet (handleHello ⟨[("q", [3])], [("q", ⟨.online, 0⟩)], []⟩ none 7 (some "alice") 1 2).state.presence "alice" = some ⟨.online, 2⟩
      ∧ ({ peerId := "alice", status := .online, timestamp := 1 } : PresencePayload) ∈ snap
      ∧ (∀ e ∈ broadcast, e.1 ≠ 7 ∧
          e.2 = .presenceUpdate { peerId := "alice", status := .online, timestamp := 2 })
      ∧ (∀ s2, s2 ∈ allSockets (handleHello ⟨[("q", [3])], [("q", ⟨.online, 0⟩)], []⟩ none 7 (some "alice") 1 2).state.registry →
          s2 ≠ 7 →
          (s2, .presenceUpdate { peerId := "alice", status := .online, timestamp := 2 }) ∈ broadcast) := by
  have hpeer : jsTrim ((some "alice").getD "") = "alice" := by decide
  have := handleHello_ordering ⟨[("q", [3])], [("q", ⟨.online, 0⟩)], []⟩ none 7 (some "alice") 1 2
    (by decide)
  rwa [hpeer] at this

/-! ## Claim C4 — signal submission validation -/

/-- C4: `saveSignal` succeeds exactly when the trimmed `sessionId`,
`senderId` and `recipientId` are non-empty, the `type` is one of
offer/answer/candidate/bye, and a payload is present unless the type is
`bye`; so for every type other than `bye` a null or missing payload is
rejected (nothing stored), while `bye` accepts any payload and normalizes
it to null.  A successfully submitted signal is appended to the store with
`consumed = false`. -/
theorem saveSignal_validation (store : SignalStore) (input : SignalInput) (now : Nat) :
    ((∃ r, saveSignal store input now = .ok r) ↔
      ((input.sessionId.map jsTrim).getD "" ≠ "" ∧
       (input.senderId.map jsTrim).getD "" ≠ "" ∧
       (input.recipientId.map jsTrim).getD "" ≠ "" ∧
       allowedSignalTypes.contains (input.type.getD "") = true ∧
       (input.type.getD "" = "bye" ∨ input.payload ≠ none)))
    ∧ (∀ doc store', saveSignal store input now = .ok (doc, store') →
        doc.consumed = false ∧ store' = store ++ [doc] ∧
        doc.type = input.type.getD "" ∧
        (doc.type = "bye" → doc.payload = none) ∧
        (doc.type ≠ "bye" → doc.payload = input.payload ∧ doc.payload ≠ none)) := by
  rcases ht : input.type with _ | t'
  · refine ⟨⟨?_, ?_⟩, ?_⟩
    · rintro ⟨r, hr⟩
      simp [saveSignal, ht] at hr
    · rintro ⟨_, _, _, h4, _⟩
      exact absurd h4 (by decide)
    · intro doc store' hok
      simp [saveSignal, ht] at hok
  by_cases hA : (input.sessionId.map jsTrim).getD "" = ""
  · refine ⟨⟨?_, ?_⟩, ?_⟩
    · rintro ⟨r, hr⟩
      simp [saveSignal, hA] at hr
    · rintro ⟨h1, _⟩
      exact absurd hA h1
    · intro doc store' hok
      simp [saveSignal, hA] at hok
  by_cases hB : (input.senderId.map jsTrim).getD "" = ""
  · refine ⟨⟨?_, ?_⟩, ?_⟩
    · rintro ⟨r, hr⟩
      simp [saveSignal, hB] at hr
    · rintro ⟨_, h2, _⟩
      exact absurd hB h2
    · intro doc store' hok
      simp [saveSignal, hB] at hok
  by_cases hC : (input.recipientId.map jsTrim).getD "" = ""
  · refine ⟨⟨?_, ?_⟩, ?_⟩
    · rintro ⟨r, hr⟩
      simp [saveSignal, hC] at hr
    · rintro ⟨_, _, h3, _⟩
      exact absurd hC h3
    · intro doc store' hok
      simp [saveSignal, hC] at hok
  by_cases htE : t' = ""
  · refine ⟨⟨?_, ?_⟩, ?_⟩
    · rintro ⟨r, hr⟩
      simp [saveSignal, ht, htE] at hr
    · rintro ⟨_, _, _, h4, _⟩
      rw [Option.getD_some, htE] at h4
      exact absurd h4 (by decide)
    · intro doc store' hok
      simp [saveSignal, ht, htE] at hok
  by_cases hAl : allowedSignalTypes.contains t' = true
  swap
  · have hAlm : ¬ t' ∈ allowedSignalTypes := by simpa using hAl
    refine ⟨⟨?_, ?_⟩, ?_⟩
    · rintro ⟨r, hr⟩
      simp [saveSignal, ht, hA, hB, hC, htE, hAlm] at hr
    · rintro ⟨_, _, _, h4, _⟩
      exact absurd h4 hAl
    · intro doc store' hok
      simp [saveSignal, ht, hA, hB, hC, htE, hAlm] at hok
  have hAlm : t' ∈ allowedSignalTypes := by simpa using hAl
  by_cases hbye : t' = "bye"
  · subst hbye
    have hsave : saveSignal store input now =
        .ok ({ _id := store.length, sessionId := (input.sessionId.map jsTrim).getD "", senderId := (input.senderId.map jsTrim).getD "", recipientId := (input.recipientId.map jsTrim).getD "", type := "bye", payload := none, createdAt := now, consumed := false, consumedAt := none },
          store ++ [{ _id := store.length, sessionId := (input.sessionId.map jsTrim).getD "", senderId := (input.senderId.map jsTrim).getD "", recipientId := (input.recipientId.map jsTrim).getD "", type := "bye", payload := none, createdAt := now, consumed := false, consumedAt := none }]) := by
      simp [saveSignal, ht, hA, hB, hC, htE, hAlm]
    refine ⟨⟨?_, ?_⟩, ?_⟩
    · intro _
      exact ⟨hA, hB, hC, hAl, Or.inl rfl⟩
    · intro _
      exact ⟨_, hsave⟩
    · intro doc store' hok
      rw [hsave, Except.ok.injEq, Prod.mk.injEq] at hok
      obtain ⟨hdoc, hstore⟩ := hok
      subst hdoc
      subst hstore
      exact ⟨rfl, rfl, rfl, fun _ => rfl, fun hne => absurd rfl hne⟩
  by_cases hpay : input.payload = none
  · refine ⟨⟨?_, ?_⟩, ?_⟩
    · rintro ⟨r, hr⟩
      simp [saveSignal, ht, hA, hB, hC, htE, hAlm, hbye, hpay] at hr
    · rintro ⟨_, _, _, _, h5⟩
      rcases h5 with hb | hp
      · exact absurd hb hbye
      · exact absurd hpay hp
    · intro doc store' hok
      simp [saveSignal, ht, hA, hB, hC, htE, hAlm, hbye, hpay] at hok
  · have hsave : saveSignal store input now =
        .ok ({ _id := store.length, sessionId := (input.sessionId.map jsTrim).getD "", senderId := (input.senderId.map jsTrim).getD "", recipientId := (input.recipientId.map jsTrim).getD "", type := t', payload := input.payload, createdAt := now, consumed := false, consumedAt := none },
          store ++ [{ _id := store.length, sessionId := (input.sessionId.map jsTrim).getD "", senderId := (input.senderId.map jsTrim).getD "", recipientId := (input.recipientId.map jsTrim).getD "", type := t', payload := input.payload, createdAt := now, consumed := false, consumedAt := none }]) := by
      simp [saveSignal, ht, hA, hB, hC, htE, hAlm, hbye, hpay]
    refine ⟨⟨?_, ?_⟩, ?_⟩
    · intro _
      exact ⟨hA, hB, hC, hAl, Or.inr hpay⟩
    · intro _
      exact ⟨_, hsave⟩
    · intro doc store' hok
      rw [hsave, Except.ok.injEq, Prod.mk.injEq] at hok
      obtain ⟨hdoc, hstore⟩ := hok
      subst hdoc
      subst hstore
      refine ⟨rfl, rfl, rfl, ?_, fun _ => ⟨rfl, hpay⟩⟩
      intro hb
      exact absurd hb hbye

/-- Witness for C4: a `bye` signal with a non-null payload is accepted, its
payload stored as null with `consumed = false`; the same input with type
`offer` and a null payload is rejected. -/
theorem saveSignal_validation_witness :
    (∃ r, saveSignal [] ⟨some "s1", some "a", some "b", some "bye", some 7⟩ 4 = .ok r)
    ∧ (∀ doc store',
        saveSignal [] ⟨some "s1", some "a", some "b", some "bye", some 7⟩ 4 = .ok (doc, store') →
        doc.consumed = false ∧ doc.payload = none)
    ∧ ¬ (∃ r, saveSignal [] ⟨some "s1", some "a", some "b", some "offer", none⟩ 4 = .ok r) := by
  refine ⟨?_, ?_, ?_⟩
  · exact (saveSignal_validation [] ⟨some "s1", some "a", some "b", some "bye", some 7⟩ 4).1.mpr
      ⟨by decide, by decide, by decide, by decide, Or.inl (by decide)⟩
  · intro doc store' hok
    have hprops := (saveSignal_validation [] ⟨some "s1", some "a", some "b", some "bye", some 7⟩ 4).2
      doc store' hok
    exact ⟨hprops.1, hprops.2.2.2.1 (hprops.2.2.1.trans rfl)⟩
  · intro hex
    have hconds := (saveSignal_validation [] ⟨some "s1", some "a", some "b", some "offer", none⟩ 4).1.mp hex
    rcases hconds.2.2.2.2 with hb | hp
    · exact absurd hb (by decide)
    · exact hp rfl

/-! ## Claims C6 and C10 — message status escalation -/

/-- After `findOneAndUpdate` writes back, the lookup sees the new record. -/
theorem findMessage_writeBack (store : MessageStore) (id : String)
    (after : MessageDocument) :
    (findMessage store id).isSome = true →
    findMessage (store.map fun e => if e.1 = id then (e.1, after) else e) id =
      some after := by
  induction store with
  | nil =>
    intro h
    simp [findMessage] at h
  | cons e l ih =>
    intro h
    by_cases he : e.1 = id
    · unfold findMessage
      rw [List.map_cons, if_pos he, List.find?_cons_of_pos _ (by simp [he])]
      rfl
    · unfold findMessage at h ⊢
      rw [List.find?_cons_of_neg _ (by simp [he])] at h
      rw [List.map_cons, if_neg he, List.find?_cons_of_neg _ (by simp [he])]
      exact ih h

/-- Behaviour of `updateMessageStatus` on a `read` update. -/
theorem updateRead_spec (store : MessageStore) (id : String)
    (doc : MessageDocument) (t : Nat)
    (hvalid : objectIdIsValid id = true)
    (hfind : findMessage store id = some doc) :
    ∃ res store',
      updateMessageStatus store id .read t = (some res, store')
      ∧ res.after.read = true
      ∧ res.after.delivered = true
      ∧ res.before = doc
      ∧ findMessage store' id = some res.after
      ∧ (doc.read = true ∧ doc.delivered = true → res.after = doc ∧ store' = store) := by
  have hsome : (findMessage store id).isSome = true := by rw [hfind]; rfl
  cases hr : doc.read <;> cases hd : doc.delivered
  · -- unread, undelivered: both flags and both timestamps get set
    have heq : updateMessageStatus store id .read t =
        (some { before := doc, after := { doc with read := true, readAt := some t, delivered := true, deliveredAt := some t }, status := .read, timestamp := t },
         store.map fun e => if e.1 = id then
           (e.1, { doc with read := true, readAt := some t, delivered := true, deliveredAt := some t }) else e) := by
      simp [updateMessageStatus, applyStatusUpdates, hvalid, hfind, hr, hd]
    refine ⟨_, _, heq, rfl, rfl, rfl, findMessage_writeBack store id _ hsome, ?_⟩
    rintro ⟨h, _⟩
    exact Bool.noConfusion h
  · -- unread but already delivered: only the read flag is set
    have heq : updateMessageStatus store id .read t =
        (some { before := doc, after := { doc with read := true, readAt := some t }, status := .read, timestamp := t },
         store.map fun e => if e.1 = id then
           (e.1, { doc with read := true, readAt := some t }) else e) := by
      simp [updateMessageStatus, applyStatusUpdates, hvalid, hfind, hr, hd]
    refine ⟨_, _, heq, rfl, hd, rfl, findMessage_writeBack store id _ hsome, ?_⟩
    rintro ⟨h, _⟩
    exact Bool.noConfusion h
  · -- read but not delivered (unreachable under the invariant): delivered set
    have heq : updateMessageStatus store id .read t =
        (some { before := doc, after := { doc with delivered := true, deliveredAt := some t }, status := .read, timestamp := doc.readAt.getD t },
         store.map fun e => if e.1 = id then
           (e.1, { doc with delivered := true, deliveredAt := some t }) else e) := by
      simp [updateMessageStatus, applyStatusUpdates, hvalid, hfind, hr, hd]
    refine ⟨_, _, heq, hr, rfl, rfl, findMessage_writeBack store id _ hsome, ?_⟩
    rintro ⟨_, h⟩
    exact Bool.noConfusion h
  · -- already read and delivered: absorbed, no write
    have heq : updateMessageStatus store id .read t =
        (some { before := doc, after := doc, status := .read, timestamp := (doc.readAt.orElse fun _ => doc.deliveredAt).getD t },
         store) := by
      simp [updateMessageStatus, applyStatusUpdates, hvalid, hfind, hr, hd]
    exact ⟨_, _, heq, hr, hd, rfl, hfind, fun _ => ⟨rfl, rfl⟩⟩

/-- Behaviour of `updateMessageStatus` on a `delivered` update. -/
theorem updateDelivered_spec (store : MessageStore) (id : String)
    (doc : MessageDocument) (t : Nat)
    (hvalid : objectIdIsValid id = true)
    (hfind : findMessage store id = some doc) :
    ∃ res store',
      updateMessageStatus store id .delivered t = (some res, store')
      ∧ res.after.delivered = true
      ∧ res.after.read = doc.read
      ∧ res.after.readAt = doc.readAt
      ∧ res.before = doc
      ∧ findMessage store' id = some res.after
      ∧ (doc.delivered = true → res.after = doc ∧ store' = store) := by
  have hsome : (findMessage store id).isSome = true := by rw [hfind]; rfl
  cases hd : doc.delivered
  · -- undelivered: the delivered flag and timestamp get set
    have heq : updateMessageStatus store id .delivered t =
        (some { before := doc, after := { doc with delivered := true, deliveredAt := some t }, status := .delivered, timestamp := t },
         store.map fun e => if e.1 = id then
           (e.1, { doc with delivered := true, deliveredAt := some t }) else e) := by
      simp [updateMessageStatus, applyStatusUpdates, hvalid, hfind, hd]
    refine ⟨_, _, heq, rfl, rfl, rfl, rfl, findMessage_writeBack store id _ hsome, ?_⟩
    intro h
    exact Bool.noConfusion h
  · -- already delivered: absorbed, no write
    have heq : updateMessageStatus store id .delivered t =
        (some { before := doc, after := doc, status := .delivered, timestamp := (doc.readAt.orElse fun _ => doc.deliveredAt).getD t },
         store) := by
      simp [updateMessageStatus, applyStatusUpdates, hvalid, hfind, hd]
    exact ⟨_, _, heq, hd, rfl, rfl, rfl, hfind, fun _ => ⟨rfl, rfl⟩⟩

/-- C6: status only escalates along sent→delivered→read: a read update marks
the record both read and delivered; a delivered update arriving after the
record is read is absorbed without touching the record or the store (so the
read flag and timestamps never regress); and applying delivered and read in
either order ends with `delivered = true, read = true`. -/
theorem updateMessageStatus_monotonic (store : MessageStore) (id : String)
    (doc : MessageDocument) (t1 t2 : Nat)
    (hvalid : objectIdIsValid id = true)
    (hfind : findMessage store id = some doc) :
    (∃ res store', updateMessageStatus store id .read t2 = (some res, store')
      ∧ res.after.read = true ∧ res.after.delivered = true
      ∧ findMessage store' id = some res.after)
    ∧ (doc.read = true → doc.delivered = true →
        ∃ res, updateMessageStatus store id .delivered t1 = (some res, store)
          ∧ res.before = doc ∧ res.after = doc)
    ∧ (∃ d1 d2,
        findMessage (updateMessageStatus
          (updateMessageStatus store id .delivered t1).2 id .read t2).2 id = some d1
        ∧ findMessage (updateMessageStatus
          (updateMessageStatus store id .read t2).2 id .delivered t1).2 id = some d2
        ∧ d1.delivered = true ∧ d1.read = true
        ∧ d2.delivered = true ∧ d2.read = true) := by
  refine ⟨?_, ?_, ?_⟩
  · obtain ⟨res, store', heq, hrd, hdl, _, hfd, _⟩ :=
      updateRead_spec store id doc t2 hvalid hfind
    exact ⟨res, store', heq, hrd, hdl, hfd⟩
  · intro hr hd
    obtain ⟨res, store', heq, _, _, _, hb, _, habs⟩ :=
      updateDelivered_spec store id doc t1 hvalid hfind
    obtain ⟨hafter, hstore⟩ := habs hd
    rw [hstore] at heq
    exact ⟨res, heq, hb, hafter⟩
  · obtain ⟨res1, store1, e1, hd1, _, _, _, f1, _⟩ :=
      updateDelivered_spec store id doc t1 hvalid hfind
    obtain ⟨res2, store2, e2, hr2, hd2, _, f2, _⟩ :=
      updateRead_spec store1 id res1.after t2 hvalid f1
    obtain ⟨resR, storeR, eR, hrR, hdR, _, fR, _⟩ :=
      updateRead_spec store id doc t2 hvalid hfind
    obtain ⟨resD, storeD, eD, hdD, hrD, _, _, fD, _⟩ :=
      updateDelivered_spec storeR id resR.after t1 hvalid fR
    refine ⟨res2.after, resD.after, ?_, ?_, hd2, hr2, hdD, ?_⟩
    · rw [e1]
      show findMessage (updateMessageStatus store1 id .read t2).2 id = some res2.after
      rw [e2]
      exact f2
    · rw [eR]
      show findMessage (updateMessageStatus storeR id .delivered t1).2 id = some resD.after
      rw [eD]
      exact fD
    · rw [hrD]
      exact hrR

/-- Witness for C6 on a one-message store holding an unread, undelivered
message. -/
theorem updateMessageStatus_monotonic_witness :
    (∃ res store',
      updateMessageStatus [("aaaaaaaaaaaaaaaaaaaaaaaa",
        ⟨"c", "a", "b", "hi", 0, false, none, false, none⟩)]
        "aaaaaaaaaaaaaaaaaaaaaaaa" .read 6 = (some res, store')
      ∧ res.after.read = true ∧ res.after.delivered = true
      ∧ findMessage store' "aaaaaaaaaaaaaaaaaaaaaaaa" = some res.after)
    ∧ (∃ d1 d2,
        findMessage (updateMessageStatus
          (updateMessageStatus [("aaaaaaaaaaaaaaaaaaaaaaaa",
            ⟨"c", "a", "b", "hi", 0, false, none, false, none⟩)]
            "aaaaaaaaaaaaaaaaaaaaaaaa" .delivered 5).2
          "aaaaaaaaaaaaaaaaaaaaaaaa" .read 6).2 "aaaaaaaaaaaaaaaaaaaaaaaa" = some d1
        ∧ findMessage (updateMessageStatus
          (updateMessageStatus [("aaaaaaaaaaaaaaaaaaaaaaaa",
            ⟨"c", "a", "b", "hi", 0, false, none, false, none⟩)]
            "aaaaaaaaaaaaaaaaaaaaaaaa" .read 6).2
          "aaaaaaaaaaaaaaaaaaaaaaaa" .delivered 5).2 "aaaaaaaaaaaaaaaaaaaaaaaa" = some d2
        ∧ d1.delivered = true ∧ d1.read = true
        ∧ d2.delivered = true ∧ d2.read = true) := by
  have h := updateMessageStatus_monotonic
    [("aaaaaaaaaaaaaaaaaaaaaaaa", ⟨"c", "a", "b", "hi", 0, false, none, false, none⟩)]
    "aaaaaaaaaaaaaaaaaaaaaaaa"
    ⟨"c", "a", "b", "hi", 0, false, none, false, none⟩ 5 6 (by decide) (by decide)
  exact ⟨h.1, h.2.2⟩

/-- C10: `updateMessageStatus` returns `null` and writes nothing when the id
is not a valid ObjectId or matches no stored message; and when the requested
status is already reflected in the stored record (delivered already set for
a delivered update; read — which under the read→delivered invariant implies
delivered — for a read update) it returns the record unchanged, before equal
to after, again without a write. -/
theorem updateMessageStatus_no_write (store : MessageStore) (messageId : String)
    (status : UpdStatus) (now : Nat) :
    (objectIdIsValid messageId = false →
      updateMessageStatus store messageId status now = (none, store))
    ∧ (findMessage store messageId = none →
      updateMessageStatus store messageId status now = (none, store))
    ∧ (∀ doc, objectIdIsValid messageId = true →
        findMessage store messageId = some doc →
        (doc.read = true → doc.delivered = true) →
        (status = .delivered → doc.delivered = true) →
        (status = .read → doc.read = true) →
        ∃ res, updateMessageStatus store messageId status now = (some res, store)
          ∧ res.before = doc ∧ res.after = doc) := by
  refine ⟨?_, ?_, ?_⟩
  · intro h
    simp [updateMessageStatus, h]
  · intro h
    unfold updateMessageStatus
    split
    · rfl
    · rw [h]
  · intro doc hv hfind hinv hd hr
    cases status
    · obtain ⟨res, store', heq, _, _, _, hb, _, habs⟩ :=
        updateDelivered_spec store messageId doc now hv hfind
      obtain ⟨hafter, hstore⟩ := habs (hd rfl)
      rw [hstore] at heq
      exact ⟨res, heq, hb, hafter⟩
    · obtain ⟨res, store', heq, _, _, hb, _, habs⟩ :=
        updateRead_spec store messageId doc now hv hfind
      obtain ⟨hafter, hstore⟩ := habs ⟨hr rfl, hinv (hr rfl)⟩
      rw [hstore] at heq
      exact ⟨res, heq, hb, hafter⟩

/-- Witness for C10: an invalid id, an unknown id, and an
already-delivered record. -/
theorem updateMessageStatus_no_write_witness :
    updateMessageStatus [("aaaaaaaaaaaaaaaaaaaaaaaa",
        ⟨"c", "a", "b", "hi", 0, true, some 3, false, none⟩)]
      "zz" .delivered 9 =
      (none, [("aaaaaaaaaaaaaaaaaaaaaaaa",
        ⟨"c", "a", "b", "hi", 0, true, some 3, false, none⟩)])
    ∧ updateMessageStatus [] "aaaaaaaaaaaaaaaaaaaaaaaa" .delivered 9 = (none, [])
    ∧ ∃ res, updateMessageStatus [("aaaaaaaaaaaaaaaaaaaaaaaa",
        ⟨"c", "a", "b", "hi", 0, true, some 3, false, none⟩)]
        "aaaaaaaaaaaaaaaaaaaaaaaa" .delivered 9 =
        (some res, [("aaaaaaaaaaaaaaaaaaaaaaaa",
          ⟨"c", "a", "b", "hi", 0, true, some 3, false, none⟩)])
      ∧ res.before = ⟨"c", "a", "b", "hi", 0, true, some 3, false, none⟩
      ∧ res.after = ⟨"c", "a", "b", "hi", 0, true, some 3, false, none⟩ := by
  refine ⟨?_, ?_, ?_⟩
  · exact (updateMessageStatus_no_write [("aaaaaaaaaaaaaaaaaaaaaaaa",
      ⟨"c", "a", "b", "hi", 0, true, some 3, false, none⟩)] "zz" .delivered 9).1 (by decide)
  · exact (updateMessageStatus_no_write [] "aaaaaaaaaaaaaaaaaaaaaaaa" .delivered 9).2.1 rfl
  · exact (updateMessageStatus_no_write [("aaaaaaaaaaaaaaaaaaaaaaaa",
      ⟨"c", "a", "b", "hi", 0, true, some 3, false, none⟩)]
      "aaaaaaaaaaaaaaaaaaaaaaaa" .delivered 9).2.2
      ⟨"c", "a", "b", "hi", 0, true, some 3, false, none⟩
      (by decide) (by decide) (by decide) (by decide) (by decide)

/-! ## Claim C3 — closing a connection

The claim says presence goes offline *only if* the closed connection was the
peer's last one.  The hub's close handler in fact sets the peer offline and
broadcasts unconditionally; the registry bookkeeping itself matches the
claim. -/

/-- `handleClose` on an identified connection, written out explicitly. -/
theorem handleClose_eq (st : HubState) (p : String) (socket : SocketId) (now : Nat) :
    handleClose st (some p) socket now =
      ({ registry := unregisterClient st.registry p socket
         presence := mapSet st.presence p ⟨.offline, now⟩
         signals := st.signals },
       emitToAll (unregisterClient st.registry p socket)
         (.presenceUpdate ⟨p, .offline, now⟩) none) := rfl

/-- C3 counterexample: peer `"p"` owns two live connections (sockets 1 and
2); closing socket 1 leaves socket 2 registered, yet the peer's presence is
set to offline and the change is broadcast — contradicting "its presence is
not set to offline" when other live connections remain. -/
theorem handleClose_counterexample :
    2 ∈ socketsOfPeer
        (handleClose ⟨[("p", [1, 2])], [("p", ⟨.online, 0⟩)], []⟩ (some "p") 1 5).1.registry "p"
    ∧ mapGet (handleClose ⟨[("p", [1, 2])], [("p", ⟨.online, 0⟩)], []⟩
        (some "p") 1 5).1.presence "p" = some ⟨.offline, 5⟩
    ∧ (2, .presenceUpdate ⟨"p", .offline, 5⟩) ∈
        (handleClose ⟨[("p", [1, 2])], [("p", ⟨.online, 0⟩)], []⟩ (some "p") 1 5).2 := by
  decide

/-- `unregisterClient` when the peer has registered sockets. -/
theorem unregisterClient_eq_some (registry : List (String × List SocketId))
    (p : String) (socket : SocketId) (sockets : List SocketId)
    (hg : mapGet registry p = some sockets) :
    unregisterClient registry p socket =
      if (sockets.erase socket).isEmpty then mapDelete registry p
      else mapSet registry p (sockets.erase socket) := by
  unfold unregisterClient
  rw [hg]

/-- C3 (amended): on close the hub removes the closed connection from the
registry (other connections of the peer stay registered), and
*unconditionally* sets the owning peer's presence to offline and broadcasts
the change to every socket still registered — even when the peer still owns
other live connections. -/
theorem handleClose_behavior (st : HubState) (p : String) (socket : SocketId)
    (now : Nat) :
    mapGet (handleClose st (some p) socket now).1.presence p =
      some ⟨.offline, now⟩
    ∧ (∀ sockets, mapGet st.registry p = some sockets → sockets.Nodup →
        socket ∉ socketsOfPeer (handleClose st (some p) socket now).1.registry p)
    ∧ (∀ sockets s2, mapGet st.registry p = some sockets → s2 ∈ sockets →
        s2 ≠ socket →
        s2 ∈ socketsOfPeer (handleClose st (some p) socket now).1.registry p)
    ∧ (∀ s2, s2 ∈ allSockets (handleClose st (some p) socket now).1.registry →
        (s2, .presenceUpdate ⟨p, .offline, now⟩) ∈
          (handleClose st (some p) socket now).2) := by
  simp only [handleClose_eq]
  refine ⟨mapGet_mapSet_self _ _ _, ?_, ?_, ?_⟩
  · intro sockets hg hnd
    unfold socketsOfPeer
    rw [unregisterClient_eq_some st.registry p socket sockets hg]
    by_cases he : (sockets.erase socket).isEmpty
    · rw [if_pos he, mapGet_mapDelete_self]
      simp
    · rw [if_neg he, mapGet_mapSet_self]
      intro hmem
      exact absurd ((hnd.mem_erase_iff).1 hmem).1 (by simp)
  · intro sockets s2 hg hs2 hne
    unfold socketsOfPeer
    rw [unregisterClient_eq_some st.registry p socket sockets hg]
    have hmem : s2 ∈ sockets.erase socket := (List.mem_erase_of_ne hne).2 hs2
    by_cases he : (sockets.erase socket).isEmpty
    · rw [List.isEmpty_iff] at he
      rw [he] at hmem
      cases hmem
    · rw [if_neg he, mapGet_mapSet_self]
      exact hmem
  · intro s2 hs2
    exact mem_emitToAll.2 ⟨rfl, hs2, by simp⟩

/-- Witness for C3's amended theorem at the counterexample hub state. -/
theorem handleClose_behavior_witness :
    mapGet (handleClose ⟨[("p", [1, 2])], [("p", ⟨.online, 0⟩)], []⟩
        (some "p") 1 5).1.presence "p" = some ⟨.offline, 5⟩
    ∧ 1 ∉ socketsOfPeer
        (handleClose ⟨[("p", [1, 2])], [("p", ⟨.online, 0⟩)], []⟩
          (some "p") 1 5).1.registry "p"
    ∧ 2 ∈ socketsOfPeer
        (handleClose ⟨[("p", [1, 2])], [("p", ⟨.online, 0⟩)], []⟩
          (some "p") 1 5).1.registry "p" := by
  have h := handleClose_behavior ⟨[("p", [1, 2])], [("p", ⟨.online, 0⟩)], []⟩ "p" 1 5
  exact ⟨h.1, h.2.1 [1, 2] rfl (by decide), h.2.2.1 [1, 2] 2 rfl (by decide) (by decide)⟩

/-! ## Claim C2 — draining pending signals

The route returns one page of at most 100 signals and marks only the
returned page consumed, so "drain twice returns nothing" holds only when
the backlog fits in a single page; with 101 pending signals the second
drain still returns one. -/

theorem createdAtLe_total (a b : SignalDoc) :
    createdAtLe a b = false → createdAtLe b a = true := by
  unfold createdAtLe
  simp only [decide_eq_false_iff_not, decide_eq_true_eq]
  omega

theorem createdAtLe_trans (a b c : SignalDoc) :
    createdAtLe a b = true → createdAtLe b c = true → createdAtLe a c = true := by
  unfold createdAtLe
  simp only [decide_eq_true_eq]
  omega

/-- C2 (amended): draining returns only unconsumed signals addressed to the
(trimmed) recipient, honouring the optional session filter, sorted by
creation time ascending and capped at 100; exactly the returned signals are
marked consumed (all other documents are untouched); and a second drain
with no intervening submit returns an empty list provided the pending
backlog fits in the 100-signal page — the code does *not* guarantee this
when more than 100 signals are pending. -/
theorem drainPending_spec (store : SignalStore) (r : String)
    (sessionQ : Option String) (t1 t2 : Nat) :
    (∀ d ∈ (drainPending store r sessionQ t1).1,
        d ∈ store ∧ d.consumed = false ∧ d.recipientId = jsTrim r ∧
        ((sessionQ.map jsTrim).getD "" ≠ "" →
          d.sessionId = (sessionQ.map jsTrim).getD ""))
    ∧ (drainPending store r sessionQ t1).1.Pairwise
        (fun a b => a.createdAt ≤ b.createdAt)
    ∧ (drainPending store r sessionQ t1).1.length ≤ 100
    ∧ (∀ d ∈ (drainPending store r sessionQ t1).1,
        { d with consumed := true, consumedAt := some t1 } ∈
          (drainPending store r sessionQ t1).2)
    ∧ (∀ d ∈ store,
        d._id ∉ (drainPending store r sessionQ t1).1.map (fun x => x._id) →
        d ∈ (drainPending store r sessionQ t1).2)
    ∧ ((store.filter (pendingMatches r ((sessionQ.map jsTrim).getD ""))).length ≤ 100 →
        (drainPending (drainPending store r sessionQ t1).2 r sessionQ t2).1 = []) := by
  have hmem_of_pending : ∀ d,
      d ∈ (sortLe createdAtLe
        (store.filter (pendingMatches r ((sessionQ.map jsTrim).getD "")))).take 100 →
      d ∈ store ∧ pendingMatches r ((sessionQ.map jsTrim).getD "") d = true := by
    intro d hd
    have hd' := mem_sortLe.1 ((List.take_sublist 100 _).subset hd)
    exact ⟨(List.mem_filter.1 hd').1, (List.mem_filter.1 hd').2⟩
  rcases hP : (sortLe createdAtLe
      (store.filter (pendingMatches r ((sessionQ.map jsTrim).getD "")))).take 100
    with _ | ⟨d0, rest⟩
  · -- nothing pending: the drain is a no-op
    have hsorted : sortLe createdAtLe
        (store.filter (pendingMatches r ((sessionQ.map jsTrim).getD ""))) = [] := by
      rcases List.take_eq_nil_iff.1 hP with h | h
      · exact absurd h (by decide)
      · exact h
    have hfilter : store.filter (pendingMatches r ((sessionQ.map jsTrim).getD "")) = [] :=
      List.eq_nil_of_length_eq_zero (by rw [← sortLe_length createdAtLe, hsorted]; rfl)
    have he : drainPending store r sessionQ t1 = ([], store) := by
      simp only [drainPending, hfilter, sortLe]
      rfl
    rw [he]
    refine ⟨fun d hd => absurd hd (by simp), by simp, by simp, fun d hd => absurd hd (by simp),
      fun d hd _ => hd, fun _ => ?_⟩
    show (drainPending store r sessionQ t2).1 = []
    simp only [drainPending, hfilter, sortLe]
    rfl
  · -- at least one pending signal: the page is returned and marked
    have he : drainPending store r sessionQ t1 =
        (d0 :: rest, store.map (fun d =>
          if ((d0 :: rest).map (fun x => x._id)).contains d._id
          then { d with consumed := true, consumedAt := some t1 } else d)) := by
      simp only [drainPending, hP]
      rfl
    rw [he]
    refine ⟨?_, ?_, ?_, ?_, ?_, ?_⟩
    · intro d hd
      rw [← hP] at hd
      obtain ⟨hstore, hmatch⟩ := hmem_of_pending d hd
      unfold pendingMatches at hmatch
      simp only [decide_eq_true_eq] at hmatch
      obtain ⟨hrec, hcons, hsess⟩ := hmatch
      refine ⟨hstore, hcons, hrec, ?_⟩
      intro hne
      rcases hsess with h | h
      · exact absurd h hne
      · exact h
    · rw [← hP]
      have hsp := sortLe_pairwise createdAtLe_total createdAtLe_trans
        (store.filter (pendingMatches r ((sessionQ.map jsTrim).getD "")))
      have := hsp.sublist (List.take_sublist 100 _)
      exact this.imp (fun h => by simpa [createdAtLe] using h)
    · rw [← hP]
      exact List.length_take_le 100 _
    · intro d hd
      rw [← hP] at hd
      refine List.mem_map.2 ⟨d, (hmem_of_pending d hd).1, ?_⟩
      rw [if_pos]
      rw [hP] at hd
      exact List.elem_eq_true_of_mem (List.mem_map.2 ⟨d, hd, rfl⟩)
    · intro d hd hnid
      refine List.mem_map.2 ⟨d, hd, ?_⟩
      rw [if_neg]
      simpa using hnid
    · intro h100
      have htake : (sortLe createdAtLe
          (store.filter (pendingMatches r ((sessionQ.map jsTrim).getD "")))).take 100 =
          sortLe createdAtLe
            (store.filter (pendingMatches r ((sessionQ.map jsTrim).getD ""))) :=
        List.take_of_length_le (by rw [sortLe_length]; exact h100)
      have hfilter2 : (store.map (fun d =>
          if ((d0 :: rest).map (fun x => x._id)).contains d._id
          then { d with consumed := true, consumedAt := some t1 } else d)).filter
            (pendingMatches r ((sessionQ.map jsTrim).getD "")) = [] := by
        rw [List.filter_eq_nil_iff]
        intro d' hd'
        rcases List.mem_map.1 hd' with ⟨d, hd, rfl⟩
        by_cases hc : ((d0 :: rest).map (fun x => x._id)).contains d._id
        · rw [if_pos hc]
          unfold pendingMatches
          simp
        · rw [if_neg hc]
          intro hmatch
          have hdpend : d ∈ (sortLe createdAtLe
              (store.filter (pendingMatches r ((sessionQ.map jsTrim).getD "")))).take 100 := by
            rw [htake]
            exact mem_sortLe.2 (List.mem_filter.2 ⟨hd, hmatch⟩)
          rw [hP] at hdpend
          exact hc (List.elem_eq_true_of_mem (List.mem_map.2 ⟨d, hdpend, rfl⟩))
      show (drainPending _ r sessionQ t2).1 = []
      simp only [drainPending, hfilter2, sortLe]
      rfl

/-- Witness for C2: one pending signal for recipient "b"; the first drain
returns it consumed-marked, the second drain returns nothing. -/
theorem drainPending_spec_witness :
    (drainPending [⟨0, "s", "a", "b", "offer", some 1, 10, false, none⟩] "b" none 5).1 =
      [⟨0, "s", "a", "b", "offer", some 1, 10, false, none⟩]
    ∧ (drainPending
        (drainPending [⟨0, "s", "a", "b", "offer", some 1, 10, false, none⟩] "b" none 5).2
        "b" none 6).1 = [] := by
  refine ⟨by decide, ?_⟩
  exact (drainPending_spec [⟨0, "s", "a", "b", "offer", some 1, 10, false, none⟩]
    "b" none 5 6).2.2.2.2.2 (by decide)

/-- C2 counterexample: with 101 pending signals for recipient "b" the first
drain returns only the 100-signal page, so a second drain with no
intervening submit still returns a signal — the claimed idempotence fails. -/
theorem drainPending_counterexample :
    (drainPending
      (drainPending
        ((List.range 101).map (fun i => ⟨i, "s", "a", "b", "offer", some 0, i, false, none⟩))
        "b" none 5).2
      "b" none 6).1 ≠ [] := by
  decide

/-! ## Claim C7 — reconciler merge (`dedupeAndSort`) -/

theorem messageKey_mergeRecords (existing msg : ChatMessage) :
    messageKey (mergeRecords existing msg) = messageKey msg := by
  simp [messageKey, mergeRecords]

theorem mapGet_isSome_any [DecidableEq α] (l : List (α × β)) (k : α) (v : β)
    (h : mapGet l k = some v) : l.any (fun e => e.1 = k) = true := by
  unfold mapGet at h
  rcases Option.map_eq_some'.1 h with ⟨e, he, _⟩
  exact List.any_eq_true.2 ⟨e, List.mem_of_find?_eq_some he,
    by simpa using List.find?_some he⟩

theorem dedupeStep_invariant (acc : List (String × ChatMessage)) (m : ChatMessage)
    (hkeys : (acc.map (fun e => e.1)).Nodup)
    (hvals : ∀ e ∈ acc, messageKey e.2 = e.1) :
    ((dedupeStep acc m).map (fun e => e.1)).Nodup ∧
      ∀ e ∈ dedupeStep acc m, messageKey e.2 = e.1 := by
  rcases hg : mapGet acc (messageKey m) with _ | existing
  · have hstep : dedupeStep acc m = acc ++ [(messageKey m, m)] := by
      simp only [dedupeStep, hg]
    rw [hstep]
    constructor
    · rw [List.map_append, List.nodup_append]
      refine ⟨hkeys, by simp, ?_⟩
      intro a ha hb
      simp only [List.map_cons, List.map_nil, List.mem_singleton] at hb
      subst hb
      exact absurd ha (mapGet_eq_none_iff.1 hg)
    · intro e he
      rcases List.mem_append.1 he with h | h
      · exact hvals e h
      · rw [List.mem_singleton.1 h]
  · have hany := mapGet_isSome_any acc (messageKey m) existing hg
    have hstep : dedupeStep acc m = mapSet acc (messageKey m) (mergeRecords existing m) := by
      simp only [dedupeStep, hg]
    rw [hstep]
    constructor
    · rw [mapSet_keys_of_mem _ _ _ hany]
      exact hkeys
    · intro e he
      unfold mapSet at he
      rw [if_pos hany] at he
      rcases List.mem_map.1 he with ⟨e', he', heq⟩
      by_cases hk : e'.1 = messageKey m
      · rw [if_pos hk] at heq
        rw [← heq]
        exact messageKey_mergeRecords existing m
      · rw [if_neg hk] at heq
        rw [← heq]
        exact hvals e' he'

theorem dedupe_fold_invariant (msgs : List ChatMessage) :
    ∀ acc, (acc.map (fun e => e.1)).Nodup → (∀ e ∈ acc, messageKey e.2 = e.1) →
      (((msgs.foldl dedupeStep acc).map (fun e => e.1)).Nodup ∧
        ∀ e ∈ msgs.foldl dedupeStep acc, messageKey e.2 = e.1) := by
  induction msgs with
  | nil =>
    intro acc h1 h2
    exact ⟨h1, h2⟩
  | cons m msgs ih =>
    intro acc h1 h2
    obtain ⟨h1', h2'⟩ := dedupeStep_invariant acc m h1 h2
    exact ih _ h1' h2'

/-- `dedupeAndSort` never emits two records with the same dedup key. -/
theorem dedupeAndSort_nodup_keys (msgs : List ChatMessage) :
    (dedupeAndSort msgs).Pairwise (fun a b => messageKey a ≠ messageKey b) := by
  obtain ⟨hkeys, hvals⟩ := dedupe_fold_invariant msgs [] (by simp) (by simp)
  have hkk : (msgs.foldl dedupeStep []).Pairwise (fun e1 e2 => e1.1 ≠ e2.1) :=
    List.pairwise_map.1 hkeys
  have hvalsPW : ((msgs.foldl dedupeStep []).map (fun e => e.2)).Pairwise
      (fun a b => messageKey a ≠ messageKey b) := by
    rw [List.pairwise_map]
    refine hkk.imp_of_mem ?_
    intro e1 e2 h1m h2m hne
    rw [hvals e1 h1m, hvals e2 h2m]
    exact hne
  unfold dedupeAndSort
  exact ((sortLe_perm chatCreatedAtLe _).pairwise_iff
    (fun {a b} h => Ne.symm h)).2 hvalsPW

/-- C7 (amended): when two records share a message id, the merged record
satisfies `delivered = old OR new`, `deliveredAt = new ?? old`, the same for
`read`/`readAt`, and `replyTo`/`reactions` take the most recently observed
*present* value (`new ?? old`); `content`, however, takes the newer record's
value unconditionally — even when it is empty — rather than the most recent
non-empty value; and merging never duplicates an entry for the same key. -/
theorem dedupeAndSort_merge (old new : ChatMessage)
    (hid : old.id ≠ "") (hkey : new.id = old.id) :
    (∃ m, dedupeAndSort [old, new] = [m]
      ∧ m.delivered = (old.delivered || new.delivered)
      ∧ m.deliveredAt = (new.deliveredAt.orElse fun _ => old.deliveredAt)
      ∧ m.read = (old.read || new.read)
      ∧ m.readAt = (new.readAt.orElse fun _ => old.readAt)
      ∧ m.replyTo = (new.replyTo.orElse fun _ => old.replyTo)
      ∧ m.reactions = (new.reactions.orElse fun _ => old.reactions)
      ∧ m.content = new.content)
    ∧ (∀ msgs : List ChatMessage,
        (dedupeAndSort msgs).Pairwise (fun a b => messageKey a ≠ messageKey b)) := by
  refine ⟨?_, dedupeAndSort_nodup_keys⟩
  have hkk : messageKey new = messageKey old := by
    unfold messageKey
    rw [hkey, if_pos hid, if_pos hid]
  have h1 : dedupeStep [] old = [(messageKey old, old)] := rfl
  have h2 : dedupeStep [(messageKey old, old)] new =
      [(messageKey old, mergeRecords old new)] := by
    have hget : mapGet [(messageKey old, old)] (messageKey new) = some old := by
      rw [hkk]
      unfold mapGet
      rw [List.find?_cons_of_pos _ (by simp)]
      rfl
    simp only [dedupeStep, hget]
    rw [hkk]
    unfold mapSet
    rw [if_pos (by simp)]
    simp
  refine ⟨mergeRecords old new, ?_, rfl, rfl, rfl, rfl, rfl, rfl, rfl⟩
  show sortLe chatCreatedAtLe
      (([old, new].foldl dedupeStep []).map (fun e => e.2)) = [mergeRecords old new]
  rw [List.foldl_cons, List.foldl_cons, List.foldl_nil, h1, h2]
  rfl

/-- Witness for C7's amended theorem: a record with `delivered` set merged
with a later copy carrying `read`. -/
theorem dedupeAndSort_merge_witness :
    ∃ m, dedupeAndSort
        [⟨"m1", "c", "a", "b", "hi", 1, true, some 4, false, none, none, none⟩,
         ⟨"m1", "c", "a", "b", "hi", 1, false, none, true, some 9, none, none⟩] = [m]
      ∧ m.delivered = true ∧ m.deliveredAt = some 4
      ∧ m.read = true ∧ m.readAt = some 9 := by
  obtain ⟨⟨m, hm, hd, hda, hr, hra, _, _, _⟩, _⟩ := dedupeAndSort_merge
    ⟨"m1", "c", "a", "b", "hi", 1, true, some 4, false, none, none, none⟩
    ⟨"m1", "c", "a", "b", "hi", 1, false, none, true, some 9, none, none⟩
    (by decide) rfl
  exact ⟨m, hm, hd, hda, hr, hra⟩

/-- C7 counterexample: the most recently observed record has empty content,
the earlier one has `"hi"`; the merged record keeps the empty content, so
content does not take the most recently observed *non-empty* value. -/
theorem dedupeAndSort_content_counterexample :
    (dedupeAndSort
      [⟨"m1", "c", "a", "b", "hi", 1, false, none, false, none, none, none⟩,
       ⟨"m1", "c", "a", "b", "", 1, false, none, false, none, none, none⟩]).map
      (fun m => m.content) = [""] := by
  decide

/-! ## Claim C1 — role derivation and glare resolution -/

/-- C1: for two distinct peer identities the lexicographically larger is
polite, the smaller is the initiator; and when both peers have an offer in
flight (`have-local-offer`), the polite peer processing the remote offer
rolls its own offer back (a `rollback`, then adopting the incoming offer as
remote description and answering it), while the impolite peer ignores the
incoming offer — no action, peer connection untouched, its own local offer
kept — so only the impolite peer's offer survives the collision. -/
theorem glare_resolution (a b : String)
    (sessIncomingA sessIncomingB : String)
    (offerA offerB : SessionDescription)
    (stA stB : NegotiatorState) (pcA pcB : PeerConnectionState)
    (hab : jsLt (jsTrim b) (jsTrim a) = true)
    (hsA : sessIncomingA ≠ "") (hsB : sessIncomingB ≠ "")
    (hA : stA.pc = some pcA) (hApc : pcA.signalingState = .haveLocalOffer)
    (hB : stB.pc = some pcB) (hBpc : pcB.signalingState = .haveLocalOffer)
    (hBl : pcB.localDescription = some offerB) :
    (isPolite a b = true ∧ isInitiator a b = false ∧
     isPolite b a = false ∧ isInitiator b a = true)
    ∧ (∃ pc', (processOffer a b stA sessIncomingA (some offerB)).1.pc = some pc'
        ∧ pc'.remoteDescription = some offerB
        ∧ pc'.localDescription = some ⟨.answer, a⟩
        ∧ (processOffer a b stA sessIncomingA (some offerB)).2 =
            [.rollback, .setRemote offerB, .sendAnswer sessIncomingA ⟨.answer, a⟩])
    ∧ ((processOffer b a stB sessIncomingB (some offerA)).1.pc = some pcB
        ∧ pcB.localDescription = some offerB
        ∧ (processOffer b a stB sessIncomingB (some offerA)).1.ignoreOffer = true
        ∧ (processOffer b a stB sessIncomingB (some offerA)).2 = []) := by
  have hpolite : isPolite a b = true := hab
  have himp : isPolite b a = false := jsLt_asymm hab
  have hPA : processOffer a b stA sessIncomingA (some offerB) =
      ({ stA with
           pc := some { signalingState := .stable
                        localDescription := some ⟨.answer, a⟩
                        remoteDescription := some offerB }
           ignoreOffer := false
           sessionId := match stA.sessionId with
             | none => some sessIncomingA
             | some s => some s },
       [.rollback, .setRemote offerB, .sendAnswer sessIncomingA ⟨.answer, a⟩]) := by
    simp [processOffer, ensurePeerConnection, hA, hApc, hpolite, hsA,
      pcRollback, pcSetRemoteOffer, pcSetLocalAnswer]
  have hPB : processOffer b a stB sessIncomingB (some offerA) =
      ({ stB with
           ignoreOffer := true
           sessionId := match stB.sessionId with
             | none => some sessIncomingB
             | some s => some s },
       []) := by
    simp [processOffer, ensurePeerConnection, hB, hBpc, himp, hsB]
  refine ⟨⟨hpolite, jsLt_asymm hab, himp, hab⟩, ?_, ?_⟩
  · rw [hPA]
    exact ⟨_, rfl, rfl, rfl, rfl⟩
  · rw [hPB]
    exact ⟨hB, hBl, rfl, rfl⟩

/-- Witness for C1: peers "alice" < "bob", both mid-offer. -/
theorem glare_resolution_witness :
    (isPolite "bob" "alice" = true ∧ isInitiator "bob" "alice" = false ∧
     isPolite "alice" "bob" = false ∧ isInitiator "alice" "bob" = true)
    ∧ (∃ pc', (processOffer "bob" "alice"
          ⟨false, false, some "sB", some ⟨.haveLocalOffer, some ⟨.offer, "bob"⟩, none⟩⟩
          "sA" (some ⟨.offer, "alice"⟩)).1.pc = some pc'
        ∧ pc'.remoteDescription = some ⟨.offer, "alice"⟩
        ∧ pc'.localDescription = some ⟨.answer, "bob"⟩
        ∧ (processOffer "bob" "alice"
            ⟨false, false, some "sB", some ⟨.haveLocalOffer, some ⟨.offer, "bob"⟩, none⟩⟩
            "sA" (some ⟨.offer, "alice"⟩)).2 =
            [.rollback, .setRemote ⟨.offer, "alice"⟩, .sendAnswer "sA" ⟨.answer, "bob"⟩])
    ∧ ((processOffer "alice" "bob"
          ⟨false, false, some "sA", some ⟨.haveLocalOffer, some ⟨.offer, "alice"⟩, none⟩⟩
          "sB" (some ⟨.offer, "bob"⟩)).1.pc =
            some ⟨.haveLocalOffer, some ⟨.offer, "alice"⟩, none⟩
        ∧ (⟨.haveLocalOffer, some ⟨.offer, "alice"⟩, none⟩
            : PeerConnectionState).localDescription = some ⟨.offer, "alice"⟩
        ∧ (processOffer "alice" "bob"
            ⟨false, false, some "sA", some ⟨.haveLocalOffer, some ⟨.offer, "alice"⟩, none⟩⟩
            "sB" (some ⟨.offer, "bob"⟩)).1.ignoreOffer = true
        ∧ (processOffer "alice" "bob"
            ⟨false, false, some "sA", some ⟨.haveLocalOffer, some ⟨.offer, "alice"⟩, none⟩⟩
            "sB" (some ⟨.offer, "bob"⟩)).2 = []) :=
  glare_resolution "bob" "alice" "sA" "sB"
    ⟨.offer, "bob"⟩ ⟨.offer, "alice"⟩
    ⟨false, false, some "sB", some ⟨.haveLocalOffer, some ⟨.offer, "bob"⟩, none⟩⟩
    ⟨false, false, some "sA", some ⟨.haveLocalOffer, some ⟨.offer, "alice"⟩, none⟩⟩
    ⟨.haveLocalOffer, some ⟨.offer, "bob"⟩, none⟩
    ⟨.haveLocalOffer, some ⟨.offer, "alice"⟩, none⟩
    (by decide) (by decide) (by decide) rfl rfl rfl rfl rfl

end Chat
